import Mathlib

/-!
Shallow embedding of the Torrent coordinator of the VIcenzo BitTorrent
client (src/src/torrent.rs) together with the small part of the frontend
(src/src/frontend/mod.rs) the claims need.

The coordinator is `Torrent::run`: a message loop over `TorrentMsg` that
mutates the torrent state and emits messages to peers, the tracker, the
disk actor and itself.  We embed one iteration of that loop as a pure
function `handleMsg` from a configuration, a state and a message to
either an error (the arms that `return Err(..)`) or a new state plus the
list of emitted effects and a flag saying whether the loop returned.

External crates are not re-implemented: SHA-1 plus hex encoding
(`sha1_smol` and `hex`) and the bencode decoder (`bendy`) enter the
model as function parameters of the configuration, exactly at the spots
the source calls them.
-/

namespace Vincenzo

/-- Peer identifiers, abstracting the source's `[u8; 20]` (only decidable
equality of ids is used by the coordinator). -/
abbrev PeerId := Nat

/-- A raw byte, as a natural number below 256 is not needed by any claim,
so plain `Nat`. -/
abbrev Byte := Nat

/-- `BlockInfo` of src/src/tcp_wire (a piece index, an offset and a
length); the coordinator treats it as opaque data. -/
structure BlockInfo where
  index : Nat
  startOffset : Nat
  len : Nat
deriving DecidableEq, Repr

/-- Announce events of src/src/tracker/event.rs. -/
inductive Event
  | None
  | Completed
  | Started
  | Stopped
deriving DecidableEq, Repr

/-- `TorrentStatus` of src/src/torrent.rs lines 580-588: exactly these
five constructors, in source order. -/
inductive TorrentStatus
  | ConnectingTrackers
  | DownloadingMetainfo
  | Downloading
  | Seeding
  | Error
deriving DecidableEq, Repr

/-- The rendering given by the source's `From<TorrentStatus> for &str`
(src/src/torrent.rs lines 590-601). -/
def statusToStr : TorrentStatus → String
  | .ConnectingTrackers => "Connecting to trackers"
  | .DownloadingMetainfo => "Downloading metainfo"
  | .Downloading => "Downloading"
  | .Seeding => "Seeding"
  | .Error => "Error"

/-- Modelled from the spec: `Info` of src/src/metainfo.rs is not under
src/; the coordinator only reads its `piece_length` and its
`get_size()` (the total size in bytes of the torrent's files), so the
model keeps exactly those two numbers, `size` standing for the value of
`Info::get_size()`. -/
structure Info where
  pieceLength : Nat
  size : Nat
deriving DecidableEq, Repr

/-- `Stats` of src/src/torrent.rs lines 118-123: tracker-reported
interval, leechers and seeders. -/
structure Stats where
  interval : Nat
  leechers : Nat
  seeders : Nat
deriving DecidableEq, Repr

/-- The `PeerMsg` variants the coordinator sends
(src/src/peer, as used from src/src/torrent.rs). -/
inductive PeerMsg
  | HavePiece (index : Nat)
  | NotInterested
  | Cancel (block : BlockInfo)
  | RequestBlockInfos (blocks : List BlockInfo)
  | Quit
deriving DecidableEq, Repr

/-- The `DiskMsg` variant the coordinator sends (src/src/disk, as used
from src/src/torrent.rs line 464). -/
inductive DiskMsg
  | NewTorrent
deriving DecidableEq, Repr

/-- One `TrackerMsg::Announce` as the coordinator builds it: its event
and the three counters (the info hash and the oneshot recipient carry no
information for the claims). -/
structure Announce where
  event : Event
  downloaded : Nat
  uploaded : Nat
  left : Nat
deriving DecidableEq, Repr

/-- `TorrentMsg` of src/src/torrent.rs lines 36-69, constructor for
constructor (`RequestInfoPiece`'s oneshot sender and `PeerConnected`'s
`Arc<PeerCtx>` are dropped: only the key enters the peer table model). -/
inductive TorrentMsg
  | UpdateBitfield (len : Nat)
  | DownloadedPiece (piece : Nat)
  | PeerConnected (id : PeerId)
  | DownloadComplete
  | SendCancel (src : PeerId) (blockInfo : BlockInfo)
  | StartEndgame (id : PeerId) (blocks : List BlockInfo)
  | DownloadedInfoPiece (total : Nat) (index : Nat) (bytes : List Byte)
  | RequestInfoPiece (index : Nat)
  | IncrementDownloaded (n : Nat)
  | IncrementUploaded (n : Nat)
  | Quit
deriving DecidableEq, Repr

/-- An observable side effect of one loop iteration: a message to a
peer's channel, to the tracker, to the disk actor, to the coordinator's
own channel, or the oneshot reply of `RequestInfoPiece`. -/
inductive Effect
  | toPeer (id : PeerId) (msg : PeerMsg)
  | toTracker (announce : Announce)
  | toDisk (msg : DiskMsg)
  | toSelf (msg : TorrentMsg)
  | infoPieceReply (bytes : Option (List Byte))
deriving DecidableEq, Repr

/-- The `Error` variants the coordinator's loop can return with
(src/src/torrent.rs lines 439 and 467). -/
inductive Error
  | BencodeError
  | PieceInvalid
deriving DecidableEq, Repr

/-- The coordinator state mutated by `Torrent::run`: the piece bitfield
(`ctx.pieces`, modelled per the spec as one bit per piece), the keys of
the `peer_ctxs` table, the sparse `info_pieces` map (a `BTreeMap`,
modelled as an association list kept sorted by key), and the scalar
fields of `Torrent`. -/
structure TorrentState where
  pieces : List Bool
  peerCtxs : List PeerId
  infoPieces : List (Nat × List Byte)
  haveInfo : Bool
  uploaded : Nat
  downloaded : Nat
  stats : Stats
  status : TorrentStatus
  size : Nat
  info : Info
deriving DecidableEq, Repr

/-- The inputs of the loop that are fixed for a torrent's lifetime:
`decodeInfo` stands for `Info::from_bencode` (crate bendy), `sha1Hex`
for `hex::encode` of the `sha1_smol` digest of the given bytes, `xt`
for `ctx.magnet.xt.unwrap()` (the magnet's hex info hash), and
`quitAfterComplete` for `Args::parse().quit_after_complete`. -/
structure Config where
  decodeInfo : List Byte → Option Info
  sha1Hex : List Byte → String
  xt : String
  quitAfterComplete : Bool

/-- What one successful loop iteration produces: the next state, the
effects emitted in order, and whether the loop returned (`Quit`). -/
structure HandleResult where
  state : TorrentState
  effects : List Effect
  halted : Bool
deriving DecidableEq, Repr

/-- Insertion into the `BTreeMap<u32, Vec<u8>>` model: keeps the
association list sorted by key in ascending order and replaces the value
at an existing key. -/
def insertSorted (k : Nat) (v : List Byte) :
    List (Nat × List Byte) → List (Nat × List Byte)
  | [] => [(k, v)]
  | (k', v') :: rest =>
    if k < k' then (k, v) :: (k', v') :: rest
    else if k = k' then (k, v) :: rest
    else (k', v') :: insertSorted k v rest

/-- `BTreeMap::get` on the model. -/
def lookupPiece (k : Nat) : List (Nat × List Byte) → Option (List Byte)
  | [] => Option.none
  | (k', v') :: rest => if k = k' then some v' else lookupPiece k rest

/-- The fold of src/src/torrent.rs lines 435-438: concatenation of the
held info pieces in ascending key order. -/
def concatPieces (m : List (Nat × List Byte)) : List Byte :=
  (m.map Prod.snd).flatten

/-- The fold of src/src/torrent.rs lines 427-429: the sum of the byte
lengths of the held info pieces. -/
def piecesLen (m : List (Nat × List Byte)) : Nat :=
  (m.map (fun p => p.2.length)).sum

/-- Rust's `str::to_uppercase` as the source applies it to hex strings
(line 452): uppercase every character. -/
def strToUpper (s : String) : String :=
  ⟨s.data.map Char.toUpper⟩

/-- One iteration of the `select!` message arm of `Torrent::run`
(src/src/torrent.rs lines 350-521), translated arm for arm. -/
def handleMsg (cfg : Config) (s : TorrentState) :
    TorrentMsg → Except Error HandleResult
  | .UpdateBitfield len =>
    -- only create the bitfield if we don't have one (lines 360-363)
    if s.pieces.length < len then
      .ok ⟨{ s with pieces := List.replicate len false }, [], false⟩
    else
      .ok ⟨s, [], false⟩
  | .DownloadedPiece piece =>
    -- lines 365-370: broadcast HavePiece to all registered peers
    .ok ⟨s, s.peerCtxs.map (fun p => .toPeer p (.HavePiece piece)), false⟩
  | .PeerConnected id =>
    -- lines 371-374: HashMap::insert on the peer table
    .ok ⟨{ s with peerCtxs :=
            if id ∈ s.peerCtxs then s.peerCtxs else s.peerCtxs ++ [id] },
         [], false⟩
  | .DownloadComplete =>
    -- lines 375-406: Seeding, Completed announce with left = 0,
    -- NotInterested to every peer, optionally Quit to self
    .ok ⟨{ s with status := .Seeding },
         Effect.toTracker ⟨.Completed, s.downloaded, s.uploaded, 0⟩
           :: s.peerCtxs.map (fun p => .toPeer p .NotInterested)
           ++ (if cfg.quitAfterComplete then [.toSelf .Quit] else []),
         false⟩
  | .SendCancel src blockInfo =>
    -- lines 409-414: Cancel to every peer whose key differs from `from`
    .ok ⟨s, (s.peerCtxs.filter (fun k => k != src)).map
              (fun p => .toPeer p (.Cancel blockInfo)), false⟩
  | .StartEndgame _ blocks =>
    -- lines 415-419
    .ok ⟨s, s.peerCtxs.map (fun p => .toPeer p (.RequestBlockInfos blocks)),
         false⟩
  | .DownloadedInfoPiece total index bytes =>
    -- lines 420-470
    let status1 := if s.status = .ConnectingTrackers then
        TorrentStatus.DownloadingMetainfo else s.status
    let ip := insertSorted index bytes s.infoPieces
    if piecesLen ip ≥ total then
      let infoBytes := concatPieces ip
      match cfg.decodeInfo infoBytes with
      | Option.none => .error .BencodeError
      | some info =>
        if strToUpper (cfg.sha1Hex infoBytes) = strToUpper cfg.xt then
          .ok ⟨{ s with status := .Downloading,
                        infoPieces := ip,
                        size := info.size,
                        haveInfo := true,
                        info := info },
               [.toDisk .NewTorrent], false⟩
        else
          .error .PieceInvalid
    else
      .ok ⟨{ s with status := status1, infoPieces := ip }, [], false⟩
  | .RequestInfoPiece index =>
    -- lines 471-474
    .ok ⟨s, [.infoPieceReply (lookupPiece index s.infoPieces)], false⟩
  | .IncrementDownloaded n =>
    -- lines 475-486: the completion test compares with the cached size
    let s' := { s with downloaded := s.downloaded + n }
    if s'.downloaded ≥ s.size then
      .ok ⟨s', [.toSelf .DownloadComplete], false⟩
    else
      .ok ⟨s', [], false⟩
  | .IncrementUploaded n =>
    -- lines 487-489
    .ok ⟨{ s with uploaded := s.uploaded + n }, [], false⟩
  | .Quit =>
    -- lines 490-519: Stopped announce, Quit to every peer, return
    .ok ⟨s, Effect.toTracker
              ⟨.Stopped, s.downloaded, s.uploaded,
               (if s.downloaded > s.info.size then
                 s.downloaded - s.info.size else 0)⟩
            :: s.peerCtxs.map (fun p => .toPeer p .Quit),
         true⟩

/-- The period of the announce timer created before the loop
(src/src/torrent.rs lines 341-344): `(stats.interval as u64).max(500)`
seconds. -/
def initialAnnounceInterval (stats : Stats) : Nat :=
  max stats.interval 500

/-- The announce-tick arm of the loop (src/src/torrent.rs lines
542-574), given the tracker's response to the periodic announce: when
`info.piece_length > 0` it announces with event None, stores the
response as the new stats, and replaces the timer with one of
`stats.interval` seconds (lines 569-571); otherwise nothing happens and
the timer keeps its current period `cur`. -/
def handleAnnounceTick (s : TorrentState) (cur : Nat) (response : Stats) :
    TorrentState × List Effect × Nat :=
  if s.info.pieceLength > 0 then
    ({ s with stats := response },
     [Effect.toTracker
        ⟨.None, s.downloaded, s.uploaded,
         if s.downloaded < s.info.size then s.info.size
         else s.downloaded - s.info.size⟩],
     response.interval)
  else
    (s, [], cur)

/-- `FrMsg` of src/src/frontend/mod.rs lines 60-64: exactly `Quit` and
`AddTorrent` (the latter's `Arc<TorrentCtx>` abstracted to a key). -/
inductive FrMsg
  | Quit
  | AddTorrent (ctx : Nat)
deriving DecidableEq, Repr

/-- The constructor name of an `FrMsg`, to state which variants the
union holds. -/
def frMsgName : FrMsg → String
  | .Quit => "Quit"
  | .AddTorrent _ => "AddTorrent"

/-- What `Frontend::stop` reads from one registered torrent context:
its info hash and the two atomic counters. -/
structure FrontendTorrent where
  infoHash : Nat
  downloaded : Nat
  uploaded : Nat
deriving DecidableEq, Repr

/-- `Frontend::stop` (src/src/frontend/mod.rs lines 141-176): for every
registered torrent it spawns one tracker announce with
`event: Event::Completed` and `left: 0`, then exits the process; no
`TorrentMsg` and no `PeerMsg` is sent on this path. -/
def frontendStop (torrents : List FrontendTorrent) : List Announce :=
  torrents.map (fun t => ⟨.Completed, t.downloaded, t.uploaded, 0⟩)

/-- A base state with every field at its `Torrent::new` value: empty
bitfield, no peers, no info pieces, zero counters, default status and a
default `Info` (piece length and size 0). -/
def st0 : TorrentState :=
  ⟨[], [], [], false, 0, 0, ⟨0, 0, 0⟩, .ConnectingTrackers, 0, ⟨0, 0⟩⟩

/-- A configuration whose external functions are inert: the bencode
decode fails and the digest is empty. -/
def cfg0 : Config :=
  ⟨fun _ => Option.none, fun _ => "", "", false⟩

/-- A small metainfo value used as the decode result of concrete runs:
piece length 2, total size 30 bytes. -/
def infoA : Info := ⟨2, 30⟩

/-- A configuration under which reconstruction succeeds: the decode
yields `infoA` and the digest of any bytes renders equal to the magnet
hash (both empty). -/
def cfgMatch : Config :=
  ⟨fun _ => some infoA, fun _ => "", "", false⟩

/-- A configuration under which the reconstructed info decodes but its
digest differs from the magnet hash. -/
def cfgMismatch : Config :=
  ⟨fun _ => some infoA, fun _ => "a", "b", false⟩

/-- Every key of the map after an insertion is the inserted key or one
of the old keys. -/
theorem mem_keys_insertSorted {x k : Nat} {v : List Byte}
    {m : List (Nat × List Byte)}
    (h : x ∈ (insertSorted k v m).map Prod.fst) :
    x = k ∨ x ∈ m.map Prod.fst := by
  induction m with
  | nil =>
    simp [insertSorted] at h
    exact Or.inl h
  | cons p rest ih =>
    obtain ⟨k', v'⟩ := p
    by_cases h1 : k < k'
    · simp only [insertSorted, if_pos h1, List.map_cons, List.mem_cons] at h ⊢
      tauto
    · by_cases h2 : k = k'
      · simp only [insertSorted, if_neg h1, if_pos h2, List.map_cons,
          List.mem_cons] at h ⊢
        tauto
      · simp only [insertSorted, if_neg h1, if_neg h2, List.map_cons,
          List.mem_cons] at h ⊢
        rcases h with h | h
        · exact Or.inr (Or.inl h)
        · rcases ih h with h | h
          · exact Or.inl h
          · exact Or.inr (Or.inr h)

/-- Insertion keeps the keys of the `BTreeMap` model strictly
ascending. -/
theorem pairwise_insertSorted {k : Nat} {v : List Byte}
    {m : List (Nat × List Byte)}
    (h : (m.map Prod.fst).Pairwise (· < ·)) :
    ((insertSorted k v m).map Prod.fst).Pairwise (· < ·) := by
  induction m with
  | nil => simp [insertSorted]
  | cons p rest ih =>
    obtain ⟨k', v'⟩ := p
    simp only [List.map_cons, List.pairwise_cons] at h
    obtain ⟨hk', hrest⟩ := h
    by_cases h1 : k < k'
    · simp only [insertSorted, if_pos h1, List.map_cons, List.pairwise_cons]
      refine ⟨?_, hk', hrest⟩
      intro b hb
      rcases List.mem_cons.mp hb with hb | hb
      · exact hb ▸ h1
      · exact lt_trans h1 (hk' b hb)
    · by_cases h2 : k = k'
      · simp only [insertSorted, if_neg h1, if_pos h2, List.map_cons,
          List.pairwise_cons]
        exact ⟨fun b hb => h2 ▸ hk' b hb, hrest⟩
      · have hk : k' < k := lt_of_le_of_ne (Nat.le_of_not_lt h1) (Ne.symm h2)
        simp only [insertSorted, if_neg h1, if_neg h2, List.map_cons,
          List.pairwise_cons]
        refine ⟨?_, ih hrest⟩
        intro b hb
        rcases mem_keys_insertSorted hb with hb | hb
        · exact hb ▸ hk
        · exact hk' b hb

/-- C1 counterexample: at the concrete state with a one-piece all-zero
bitfield and no peers, receiving DownloadedPiece(0) leaves the bitfield
all-zero instead of setting bit 0, so the claimed arm behaviour (set
the bit; emit DownloadComplete once every bit is set) is false. -/
theorem downloadedPiece_claim_refuted :
    ¬ ∀ (cfg : Config) (s : TorrentState) (i : Nat) (r : HandleResult),
        handleMsg cfg s (.DownloadedPiece i) = .ok r →
          r.state.pieces = s.pieces.set i true
          ∧ (∀ p ∈ s.peerCtxs, Effect.toPeer p (.HavePiece i) ∈ r.effects)
          ∧ ((∀ b ∈ r.state.pieces, b = true) →
              Effect.toSelf .DownloadComplete ∈ r.effects) := by
  intro h
  have h2 := (h cfg0 { st0 with pieces := [false] } 0
      ⟨{ st0 with pieces := [false] }, [], false⟩ rfl).1
  simp [st0] at h2

/-- C1 (amended): when the coordinator receives DownloadedPiece(index)
it sends HavePiece(index) to every registered peer and nothing else: the
state (in particular the bitfield) is unchanged and no DownloadComplete
is emitted by this arm. -/
theorem downloadedPiece_broadcast_only
    (cfg : Config) (s : TorrentState) (i : Nat) :
    handleMsg cfg s (.DownloadedPiece i) =
      .ok ⟨s, s.peerCtxs.map (fun p => Effect.toPeer p (.HavePiece i)),
           false⟩ := rfl

/-- C4: the Info is not frozen.  At a state with have_info already true
(a completed, seeding torrent holding its full one-piece info map), a
replayed DownloadedInfoPiece re-runs the reconstruction: it sends a
second NewTorrent to Disk and moves the status from Seeding back to
Downloading. -/
theorem downloadedInfoPiece_replay_not_frozen :
    handleMsg cfgMatch
        { st0 with haveInfo := true,
                   status := .Seeding,
                   infoPieces := [(0, [9])],
                   size := 30,
                   info := infoA }
        (.DownloadedInfoPiece 1 0 [9]) =
      .ok ⟨{ st0 with haveInfo := true,
                      status := .Downloading,
                      infoPieces := [(0, [9])],
                      size := 30,
                      info := infoA },
           [Effect.toDisk .NewTorrent], false⟩ := by rfl

/-- C5: UpdateBitfield(len) resizes the bitfield to an all-zero one of
length len exactly when the current bitfield is shorter, leaves it
unchanged otherwise (first-writer-wins), and from the empty start an
UpdateBitfield(8) yields a bitfield of length 8 with every bit zero.
The Bitfield representation (one bit per piece) is modelled from the
spec, src/src/bitfield.rs not being under src/. -/
theorem updateBitfield_first_writer_wins
    (cfg : Config) (s : TorrentState) (len : Nat) :
    (s.pieces.length < len →
        handleMsg cfg s (.UpdateBitfield len) =
          .ok ⟨{ s with pieces := List.replicate len false }, [], false⟩)
    ∧ (len ≤ s.pieces.length →
        handleMsg cfg s (.UpdateBitfield len) = .ok ⟨s, [], false⟩)
    ∧ handleMsg cfg st0 (.UpdateBitfield 8) =
        .ok ⟨{ st0 with pieces := List.replicate 8 false }, [], false⟩
    ∧ (List.replicate 8 false).length = 8
    ∧ (∀ b ∈ List.replicate 8 false, b = false) := by
  refine ⟨?_, ?_, rfl, by simp, by simp⟩
  · intro h
    simp [handleMsg, h]
  · intro h
    simp [handleMsg, Nat.not_lt.mpr h]

/-- C2 counterexample: at a concrete single-message reconstruction
whose held bytes reach the total and whose digest differs from the
magnet hash, the handler produces no successor state at all (it
returns an error), so in particular no state whose status is Error:
the claimed transition of the status field to Error is false. -/
theorem infoHashMismatch_claim_refuted :
    ¬ ∀ (cfg : Config) (s : TorrentState) (total index : Nat)
        (bytes : List Byte),
        piecesLen (insertSorted index bytes s.infoPieces) ≥ total →
        strToUpper (cfg.sha1Hex (concatPieces
            (insertSorted index bytes s.infoPieces))) ≠ strToUpper cfg.xt →
        ∃ r, handleMsg cfg s (.DownloadedInfoPiece total index bytes) = .ok r
          ∧ r.state.status = .Error ∧ r.state.haveInfo = false := by
  intro h
  obtain ⟨r, hr, -, -⟩ := h cfgMismatch st0 1 0 [9] (by decide) (by decide)
  rw [show handleMsg cfgMismatch st0 (.DownloadedInfoPiece 1 0 [9])
      = .error .PieceInvalid from by rfl] at hr
  exact Except.noConfusion hr

/-- C2 (amended): when the held byte-lengths reach the total and the
reconstructed bytes decode but their SHA-1 differs from the magnet's
hash, the coordinator's run loop returns with Err(Error::PieceInvalid);
no successor state is produced, so the status field is never set to
Error and have_info stays false. -/
theorem infoHashMismatch_returns_pieceInvalid
    (cfg : Config) (s : TorrentState) (total index : Nat) (bytes : List Byte)
    (info : Info)
    (htot : piecesLen (insertSorted index bytes s.infoPieces) ≥ total)
    (hdec : cfg.decodeInfo (concatPieces (insertSorted index bytes s.infoPieces))
        = some info)
    (hne : strToUpper (cfg.sha1Hex (concatPieces
        (insertSorted index bytes s.infoPieces))) ≠ strToUpper cfg.xt) :
    handleMsg cfg s (.DownloadedInfoPiece total index bytes)
      = .error .PieceInvalid := by
  simp [handleMsg, htot, hdec, hne]

/-- C2 witness at a concrete mismatching reconstruction. -/
theorem infoHashMismatch_returns_pieceInvalid_witness :
    handleMsg cfgMismatch st0 (.DownloadedInfoPiece 1 0 [9])
      = .error .PieceInvalid :=
  infoHashMismatch_returns_pieceInvalid cfgMismatch st0 1 0 [9] infoA
    (by decide) rfl (by decide)

/-- C3: when the byte-lengths held after the insertion reach the total,
the pieces decode, and the SHA-1 of the concatenation (taken in
ascending index order; the insertion keeps the map's keys strictly
ascending) matches the magnet's hash, the handler sets have_info,
stores the decoded Info, caches its total size, moves the status to
Downloading, and sends NewTorrent to the Disk actor. -/
theorem downloadedInfoPiece_success
    (cfg : Config) (s : TorrentState) (total index : Nat) (bytes : List Byte)
    (info : Info)
    (hsort : (s.infoPieces.map Prod.fst).Pairwise (· < ·))
    (htot : piecesLen (insertSorted index bytes s.infoPieces) ≥ total)
    (hdec : cfg.decodeInfo (concatPieces (insertSorted index bytes s.infoPieces))
        = some info)
    (hhash : strToUpper (cfg.sha1Hex (concatPieces
        (insertSorted index bytes s.infoPieces))) = strToUpper cfg.xt) :
    handleMsg cfg s (.DownloadedInfoPiece total index bytes) =
      .ok ⟨{ s with status := .Downloading,
                    infoPieces := insertSorted index bytes s.infoPieces,
                    size := info.size,
                    haveInfo := true,
                    info := info },
           [Effect.toDisk .NewTorrent], false⟩
    ∧ ((insertSorted index bytes s.infoPieces).map Prod.fst).Pairwise (· < ·) := by
  constructor
  · simp [handleMsg, htot, hdec, hhash]
  · exact pairwise_insertSorted hsort

/-- C3 witness at a concrete matching reconstruction. -/
theorem downloadedInfoPiece_success_witness :
    handleMsg cfgMatch st0 (.DownloadedInfoPiece 1 0 [9]) =
      .ok ⟨{ st0 with status := .Downloading,
                      infoPieces := insertSorted 0 [9] st0.infoPieces,
                      size := infoA.size,
                      haveInfo := true,
                      info := infoA },
           [Effect.toDisk .NewTorrent], false⟩
    ∧ ((insertSorted 0 [9] st0.infoPieces).map Prod.fst).Pairwise (· < ·) :=
  downloadedInfoPiece_success cfgMatch st0 1 0 [9] infoA (by simp [st0])
    (by decide) rfl rfl

/-- C6: on SendCancel from a peer, a Cancel of the same block goes to
exactly the registered peers other than the sender, and nothing is sent
to the sender itself. -/
theorem sendCancel_skips_sender
    (cfg : Config) (s : TorrentState) (src : PeerId) (b : BlockInfo)
    (r : HandleResult)
    (h : handleMsg cfg s (.SendCancel src b) = .ok r) :
    r.effects = (s.peerCtxs.filter (fun k => k != src)).map
        (fun p => Effect.toPeer p (.Cancel b))
    ∧ (∀ p ∈ s.peerCtxs, p ≠ src → Effect.toPeer p (.Cancel b) ∈ r.effects)
    ∧ (∀ m : PeerMsg, Effect.toPeer src m ∉ r.effects) := by
  have h' : Except.ok (⟨s, (s.peerCtxs.filter (fun k => k != src)).map
      (fun p => Effect.toPeer p (.Cancel b)), false⟩ : HandleResult)
      = Except.ok r := h
  have hr := Except.ok.inj h'
  subst hr
  refine ⟨rfl, ?_, ?_⟩
  · intro p hp hne
    simp only [List.mem_map, List.mem_filter]
    exact ⟨p, ⟨hp, by simp [hne]⟩, rfl⟩
  · intro m hm
    simp only [List.mem_map, List.mem_filter] at hm
    obtain ⟨a, ⟨-, ha⟩, heq⟩ := hm
    injection heq with h1 h2
    subst h1
    simp at ha

/-- C6 witness: with peers 1 and 2 registered, SendCancel from peer 1
sends Cancel to peer 2 only. -/
theorem sendCancel_skips_sender_witness :
    (⟨{ st0 with peerCtxs := [1, 2] },
        [Effect.toPeer 2 (.Cancel ⟨0, 0, 16384⟩)], false⟩
      : HandleResult).effects =
      (({ st0 with peerCtxs := [1, 2] }
          : TorrentState).peerCtxs.filter (fun k => k != 1)).map
        (fun p => Effect.toPeer p (.Cancel ⟨0, 0, 16384⟩))
    ∧ (∀ p ∈ ({ st0 with peerCtxs := [1, 2] } : TorrentState).peerCtxs,
        p ≠ 1 → Effect.toPeer p (.Cancel ⟨0, 0, 16384⟩) ∈
          (⟨{ st0 with peerCtxs := [1, 2] },
              [Effect.toPeer 2 (.Cancel ⟨0, 0, 16384⟩)], false⟩
            : HandleResult).effects)
    ∧ (∀ m : PeerMsg, Effect.toPeer 1 m ∉
        (⟨{ st0 with peerCtxs := [1, 2] },
            [Effect.toPeer 2 (.Cancel ⟨0, 0, 16384⟩)], false⟩
          : HandleResult).effects) :=
  sendCancel_skips_sender cfg0 { st0 with peerCtxs := [1, 2] } 1 ⟨0, 0, 16384⟩
    ⟨{ st0 with peerCtxs := [1, 2] },
      [Effect.toPeer 2 (.Cancel ⟨0, 0, 16384⟩)], false⟩ rfl

/-- C7: on the UI Quit path, Frontend::stop announces Event::Completed
(not Stopped) for each registered torrent and then exits the process;
evaluated at one concrete registered torrent. -/
theorem frontendStop_event_completed :
    frontendStop [⟨77, 10, 3⟩] = [⟨Event.Completed, 10, 3, 0⟩]
    ∧ Event.Completed ≠ Event.Stopped :=
  ⟨rfl, by decide⟩

/-- C8 counterexample: at a state with a known piece length and a
tracker response whose interval is 1 second, the period installed by
the announce-tick arm is 1 second, not max(500, 1): the claimed lower
bound does not survive a reschedule. -/
theorem announce_interval_claim_refuted :
    ¬ ∀ (s : TorrentState) (cur : Nat) (response : Stats),
        s.info.pieceLength > 0 →
          (handleAnnounceTick s cur response).2.2
            = max 500 response.interval := by
  intro h
  have h2 := h { st0 with info := infoA } 500 ⟨1, 0, 0⟩ (by decide)
  exact absurd h2 (by decide)

/-- C8 (amended): the initial announce period is lower-bounded by 500
seconds (it is max(tracker interval, 500)), but the period installed
after an announce response equals the raw tracker-reported interval,
with no lower bound. -/
theorem announce_interval_bounds
    (s : TorrentState) (cur : Nat) (response : Stats)
    (h : s.info.pieceLength > 0) :
    500 ≤ initialAnnounceInterval s.stats
    ∧ (handleAnnounceTick s cur response).2.2 = response.interval := by
  constructor
  · exact le_max_right _ _
  · simp [handleAnnounceTick, h]

/-- C8 witness at a concrete state and a tracker response with a
1-second interval. -/
theorem announce_interval_bounds_witness :
    500 ≤ initialAnnounceInterval ({ st0 with info := infoA }
        : TorrentState).stats
    ∧ (handleAnnounceTick { st0 with info := infoA } 500 ⟨1, 0, 0⟩).2.2
        = (⟨1, 0, 0⟩ : Stats).interval :=
  announce_interval_bounds { st0 with info := infoA } 500 ⟨1, 0, 0⟩ (by decide)

/-- C9 counterexample: no TorrentStatus value renders as Paused and no
FrMsg variant is TogglePause; the claimed Paused state and TogglePause
command are absent from the source's unions. -/
theorem paused_and_togglePause_absent :
    (¬ ∃ s : TorrentStatus, statusToStr s = "Paused")
    ∧ (¬ ∃ m : FrMsg, frMsgName m = "TogglePause") := by
  constructor
  · rintro ⟨s, hs⟩
    cases s <;> exact absurd hs (by decide)
  · rintro ⟨m, hm⟩
    cases m with
    | Quit => exact absurd hm (by decide)
    | AddTorrent c =>
      rw [show frMsgName (.AddTorrent c) = "AddTorrent" from rfl] at hm
      exact absurd hm (by decide)

/-- C9 (amended): the torrent status union has exactly
ConnectingTrackers, DownloadingMetainfo, Downloading, Seeding and Error
(no Paused), and the UI command union FrMsg has exactly Quit and
AddTorrent (no TogglePause). -/
theorem torrentStatus_and_frMsg_variants :
    (∀ s : TorrentStatus,
        s = .ConnectingTrackers ∨ s = .DownloadingMetainfo
          ∨ s = .Downloading ∨ s = .Seeding ∨ s = .Error)
    ∧ (∀ m : FrMsg, m = .Quit ∨ ∃ c, m = .AddTorrent c) := by
  constructor
  · intro s
    cases s <;> simp
  · intro m
    cases m with
    | Quit => exact Or.inl rfl
    | AddTorrent c => exact Or.inr ⟨c, rfl⟩

/-- C10: while the cached size is still 0 (Info not yet reconstructed),
any IncrementDownloaded(n) passes the completion test downloaded >= size
and emits DownloadComplete to the coordinator itself; and handling
DownloadComplete sets the status to Seeding. -/
theorem incrementDownloaded_size_zero_completes
    (cfg : Config) (s : TorrentState) (n : Nat) (h : s.size = 0) :
    handleMsg cfg s (.IncrementDownloaded n) =
      .ok ⟨{ s with downloaded := s.downloaded + n },
           [Effect.toSelf .DownloadComplete], false⟩
    ∧ (∀ (s' : TorrentState) (r : HandleResult),
        handleMsg cfg s' .DownloadComplete = .ok r →
          r.state.status = .Seeding) := by
  constructor
  · simp [handleMsg, h]
  · intro s' r hr
    simp only [handleMsg] at hr
    injection hr with h2
    subst h2
    rfl

/-- C10 witness: from the initial state (size 0), IncrementDownloaded(7)
emits DownloadComplete, whose handling sets the status to Seeding. -/
theorem incrementDownloaded_size_zero_completes_witness :
    handleMsg cfg0 st0 (.IncrementDownloaded 7) =
      .ok ⟨{ st0 with downloaded := st0.downloaded + 7 },
           [Effect.toSelf .DownloadComplete], false⟩
    ∧ (∀ (s' : TorrentState) (r : HandleResult),
        handleMsg cfg0 s' .DownloadComplete = .ok r →
          r.state.status = .Seeding) :=
  incrementDownloaded_size_zero_completes cfg0 st0 7 rfl

end Vincenzo
